import Mathlib

/-!
Verification development for the Titan memory model
(`src/model.ts` of the mcp-titan-cognitive-memory repository).

Tensors are embedded as rational vectors (`List ℚ`) and rectangular
matrices (`List (List ℚ)`, row major).  Operations of the numeric
backend that can fail (matrix product — including its rank-at-least-2
requirement on both operands — elementwise add/sub/mul of equal-length
vectors, reshape, slice, empty concat, variable assignment) are
embedded as `Option`-valued functions returning `none` exactly when the
backend would throw.  Transcendental functions of the backend (exp,
sqrt, cos, sin) are abstracted in a `Backend` record, as the
specification treats them as an external numeric capability.
-/

/-- The external numeric backend's transcendental capabilities
(spec section 6): exponential (softmax), square root (norms and the
attention scale), cosine and sine (the geodesic step). -/
structure Backend where
  exp : ℚ → ℚ
  sqrt : ℚ → ℚ
  cos : ℚ → ℚ
  sin : ℚ → ℚ

/-- Dot product of two rational vectors (zip semantics; all uses in the
development are on equal-length vectors). -/
def dot (a b : List ℚ) : ℚ :=
  (List.zipWith (· * ·) a b).sum

/-- Sum of squares of a vector; `‖v‖ = sqrt (sumSq v)`. -/
def sumSq (a : List ℚ) : ℚ :=
  (a.map fun v => v * v).sum

/-- Arithmetic (population) mean of the entries, as `tf.mean`. -/
def meanQ (a : List ℚ) : ℚ :=
  a.sum / (a.length : ℚ)

/-- Elementwise addition; fails on shape mismatch as the backend does. -/
def vecAdd (a b : List ℚ) : Option (List ℚ) :=
  if a.length = b.length then some (List.zipWith (· + ·) a b) else none

/-- Elementwise subtraction; fails on shape mismatch. -/
def vecSub (a b : List ℚ) : Option (List ℚ) :=
  if a.length = b.length then some (List.zipWith (· - ·) a b) else none

/-- Elementwise multiplication; fails on shape mismatch. -/
def vecMul (a b : List ℚ) : Option (List ℚ) :=
  if a.length = b.length then some (List.zipWith (· * ·) a b) else none

/-- Number of columns of a row-major matrix. -/
def matCols (M : List (List ℚ)) : ℕ :=
  (M.headD []).length

/-- Column `j` of a row-major matrix. -/
def matCol (M : List (List ℚ)) (j : ℕ) : List ℚ :=
  M.map fun r => r.getD j 0

/-- `tf.matMul(v, M)` with `v` a row vector: requires the inner
dimensions to agree (`v.length` = number of rows of `M`) and `M`
rectangular; the result has one entry per column of `M`. -/
def mulRowMat (v : List ℚ) (M : List (List ℚ)) : Option (List ℚ) :=
  if v.length = M.length ∧ ∀ r ∈ M, r.length = matCols M then
    some ((List.range (matCols M)).map fun j => dot v (matCol M j))
  else none

/-- `tf.matMul(v, M.transpose())` with `v` a row vector: requires every
row of `M` to have length `v.length`; the result has one entry per row
of `M`, namely the dot product of that row with `v`. -/
def mulRowMatT (v : List ℚ) (M : List (List ℚ)) : Option (List ℚ) :=
  if ∀ r ∈ M, r.length = v.length then some (M.map fun r => dot r v) else none

/-- `tf.matMul` applied to a rank-1 operand.  tf.js `matMul` requires
both operands to have rank at least 2 (an op-level assert in tfjs 1.x;
in 2.x-4.x the BatchMatMul kernel's reshape of the rank-1 operand fails
its element-count assert), so the product always throws.  `forward`
hands `multiHeadAttention` the rank-1 tensors `newMemory` (a slice of
the squeezed output, line 160) and the rank-1 session `memory`, so
every head projection of the attention loop fails. -/
def matMulRank1 (_v : List ℚ) (_M : List (List ℚ)) : Option (List ℚ) :=
  none

/-- The wire-level construction record `TitanMemoryConfig` of
`model.ts`: every field optional, `none` standing for an omitted
(undefined) field. -/
structure TitanMemoryConfig where
  inputDim : Option ℤ := none
  hiddenDim : Option ℤ := none
  outputDim : Option ℤ := none
  learningRate : Option ℚ := none
  useManifold : Option Bool := none
  momentumFactor : Option ℚ := none
  forgetGateInit : Option ℚ := none
  maxStepSize : Option ℚ := none
  tangentEpsilon : Option ℚ := none
  numHeads : Option ℤ := none
  numLayers : Option ℤ := none
deriving DecidableEq

/-- JavaScript `config.x || d` on an integer field: an omitted field or
the (falsy) value `0` yields the default `d`; any other value passes
through unvalidated. -/
def orDefault (v : Option ℤ) (d : ℤ) : ℤ :=
  match v with
  | none => d
  | some x => if x = 0 then d else x

/-- JavaScript `config.x || d` on a numeric (rational) field. -/
def orDefaultQ (v : Option ℚ) (d : ℚ) : ℚ :=
  match v with
  | none => d
  | some x => if x = 0 then d else x

/-- The fully resolved configuration, as reported by `getConfig()`
(the memory dimension travels under the wire name `outputDim`). -/
structure ConfigOut where
  inputDim : ℤ
  hiddenDim : ℤ
  outputDim : ℤ
  learningRate : ℚ
  useManifold : Bool
  momentumFactor : ℚ
  forgetGateInit : ℚ
  maxStepSize : ℚ
  tangentEpsilon : ℚ
  numHeads : ℤ
  numLayers : ℤ
deriving DecidableEq

/-- Field resolution performed at the top of the constructor
(`config.inputDim || 64`, etc., lines 60-75 of `model.ts`). -/
def resolveConfig (config : TitanMemoryConfig) : ConfigOut :=
  { inputDim := orDefault config.inputDim 64
    hiddenDim := orDefault config.hiddenDim 32
    outputDim := orDefault config.outputDim 64
    learningRate := orDefaultQ config.learningRate (1/1000)
    useManifold := config.useManifold.getD false
    momentumFactor := orDefaultQ config.momentumFactor (9/10)
    forgetGateInit := orDefaultQ config.forgetGateInit (1/100)
    maxStepSize := orDefaultQ config.maxStepSize (1/10)
    tangentEpsilon := orDefaultQ config.tangentEpsilon (1/10^8)
    numHeads := orDefault config.numHeads 4
    numLayers := orDefault config.numLayers 3 }

/-- A `TitanMemoryModel` instance: the resolved configuration fields
together with every parameter array the instance owns. -/
structure TitanMemoryModel where
  inputDim : ℤ
  hiddenDim : ℤ
  memoryDim : ℤ
  learningRate : ℚ
  useManifold : Bool
  momentumFactor : ℚ
  forgetGateInit : ℚ
  maxStepSize : ℚ
  tangentEpsilon : ℚ
  numHeads : ℤ
  numLayers : ℤ
  W1 : List (List ℚ)
  b1 : List ℚ
  W2 : List (List ℚ)
  b2 : List ℚ
  forgetGate : ℚ
  queryWeights : List (List (List ℚ))
  keyWeights : List (List (List ℚ))
  valueWeights : List (List (List ℚ))
  attentionOutputWeights : List (List (List ℚ))
  hierarchicalMemory : List (List ℚ)
deriving DecidableEq

/-- Entry generators standing for the constructor's `tf.randomNormal`
draws (the shapes are fixed by the constructor; the drawn values are
abstracted). -/
structure WeightInit where
  w1 : ℕ → ℕ → ℚ
  w2 : ℕ → ℕ → ℚ
  q : ℕ → ℕ → ℕ → ℚ
  k : ℕ → ℕ → ℕ → ℚ
  v : ℕ → ℕ → ℕ → ℚ
  o : ℕ → ℕ → ℕ → ℚ

/-- An `r × c` matrix filled by an entry generator. -/
def mkMat (r c : ℕ) (f : ℕ → ℕ → ℚ) : List (List ℚ) :=
  (List.range r).map fun i => (List.range c).map fun j => f i j

/-- A zero vector, as `tf.zeros([n])`. -/
def zerosV (n : ℕ) : List ℚ :=
  List.replicate n 0

/-- The constructor of `TitanMemoryModel` (lines 59-109 of `model.ts`):
resolve the config by `||`-defaulting, then create the parameter
tensors.  It performs no validation of its own; it fails only where the
backend rejects a negative tensor dimension (the `memoryDim`-sized
attention and bank tensors are only created when the head or layer loop
runs at least once). -/
def mkModel (wi : WeightInit) (config : TitanMemoryConfig) : Option TitanMemoryModel :=
  let r := resolveConfig config
  let fullOutputDim := r.inputDim + r.outputDim
  if 0 ≤ r.hiddenDim ∧ 0 ≤ fullOutputDim ∧
      ((0 < r.numHeads ∨ 0 < r.numLayers) → 0 ≤ r.outputDim) then
    some
      { inputDim := r.inputDim
        hiddenDim := r.hiddenDim
        memoryDim := r.outputDim
        learningRate := r.learningRate
        useManifold := r.useManifold
        momentumFactor := r.momentumFactor
        forgetGateInit := r.forgetGateInit
        maxStepSize := r.maxStepSize
        tangentEpsilon := r.tangentEpsilon
        numHeads := r.numHeads
        numLayers := r.numLayers
        W1 := mkMat r.hiddenDim.toNat fullOutputDim.toNat wi.w1
        b1 := zerosV r.hiddenDim.toNat
        W2 := mkMat fullOutputDim.toNat r.hiddenDim.toNat wi.w2
        b2 := zerosV fullOutputDim.toNat
        forgetGate := r.forgetGateInit
        queryWeights :=
          (List.range r.numHeads.toNat).map fun h =>
            mkMat r.outputDim.toNat r.outputDim.toNat (wi.q h)
        keyWeights :=
          (List.range r.numHeads.toNat).map fun h =>
            mkMat r.outputDim.toNat r.outputDim.toNat (wi.k h)
        valueWeights :=
          (List.range r.numHeads.toNat).map fun h =>
            mkMat r.outputDim.toNat r.outputDim.toNat (wi.v h)
        attentionOutputWeights :=
          (List.range r.numHeads.toNat).map fun h =>
            mkMat r.outputDim.toNat r.outputDim.toNat (wi.o h)
        hierarchicalMemory :=
          (List.range r.numLayers.toNat).map fun _ => zerosV r.outputDim.toNat }
  else none

/-- `getConfig()` (lines 300-314): the stored configuration, with the
memory dimension reported under the wire name `outputDim`. -/
def getConfig (m : TitanMemoryModel) : ConfigOut :=
  { inputDim := m.inputDim
    hiddenDim := m.hiddenDim
    outputDim := m.memoryDim
    learningRate := m.learningRate
    useManifold := m.useManifold
    momentumFactor := m.momentumFactor
    forgetGateInit := m.forgetGateInit
    maxStepSize := m.maxStepSize
    tangentEpsilon := m.tangentEpsilon
    numHeads := m.numHeads
    numLayers := m.numLayers }

/-- One forward/return record of `forward` (the `ForwardResult` of
`model.ts`): predicted vector, pre-attention new memory, scalar
surprise. -/
structure ForwardOut where
  predicted : List ℚ
  newMemory : List ℚ
  surprise : ℚ
deriving DecidableEq

/-- The per-head loop of `multiHeadAttention` (lines 112-122): head `i`
projects query/key/value through its matrices, computes the scaled
dot-product score, softmaxes it and scales the value projection.  The
counter is the `numHeads` loop bound; the matrix lists are consumed in
head order (`queryWeights[i]`, missing entries fail as an undefined
index access would).  The query, key and value `forward` passes in are
rank-1 tensors, so each projection is a rank-1 `tf.matMul` and throws
(`matMulRank1`); the remainder of the loop body is kept for source
correspondence but is unreachable. -/
def attentionHeads (B : Backend) (scale : ℚ) (query key value : List ℚ) :
    ℕ → List (List (List ℚ)) → List (List (List ℚ)) → List (List (List ℚ)) →
    Option (List (List ℚ))
  | 0, _, _, _ => some []
  | n + 1, qs, ks, vs =>
    match qs.head?, ks.head?, vs.head? with
    | some Qm, some Km, some Vm =>
      match matMulRank1 query Qm, matMulRank1 key Km, matMulRank1 value Vm with
      | some q, some k, some v =>
        if q.length = k.length then
          let s := dot q k / scale
          let w := B.exp s / B.exp s
          match attentionHeads B scale query key value n qs.tail ks.tail vs.tail with
          | some rest => some ((v.map fun x => w * x) :: rest)
          | none => none
        else none
      | _, _, _ => none
    | _, _, _ => none

/-- `multiHeadAttention` (lines 111-128): run all heads, concatenate
their outputs along the feature axis (`tf.concat` throws when handed an
empty tensor list, the `numHeads = 0` case), and project the
concatenation through the output matrix of head 0 only.  As called by
`forward` this method always throws: with at least one head the head
loop fails on its rank-1 `tf.matMul` projections, and with zero heads
the empty concatenation fails. -/
def multiHeadAttention (B : Backend) (m : TitanMemoryModel)
    (query key value : List ℚ) : Option (List ℚ) :=
  match attentionHeads B (B.sqrt (m.memoryDim : ℚ)) query key value
      m.numHeads.toNat m.queryWeights m.keyWeights m.valueWeights with
  | none => none
  | some heads =>
    if heads.isEmpty then none
    else
      match m.attentionOutputWeights.head? with
      | none => none
      | some W0 => mulRowMat heads.flatten W0

/-- The pure part of `forward` (lines 130-168): gate the memory,
concatenate with the input, run the two-layer MLP (legal rank-2
products, since line 141 explicitly reshapes the combined vector to a
`[1, inputDim+memoryDim]` row), squeeze and split the output into new
memory and prediction, score the surprise, and compute the attention
output destined for the hierarchical banks.  The split parts are
rank-1, so the final `multiHeadAttention` step always throws and no
invocation reaches the return. -/
def forwardAux (B : Backend) (m : TitanMemoryModel) (x memory : List ℚ) :
    Option (ForwardOut × List ℚ) :=
  let gated := memory.map fun v => v * (1 - m.forgetGate)
  let combined := x ++ gated
  if combined.length = (m.inputDim + m.memoryDim).toNat then
    match mulRowMatT combined m.W1 with
    | none => none
    | some pre1 =>
      match vecAdd pre1 m.b1 with
      | none => none
      | some h1 =>
        let hidden1 := h1.map fun v => max v 0
        match mulRowMatT hidden1 m.W2 with
        | none => none
        | some pre2 =>
          match vecAdd pre2 m.b2 with
          | none => none
          | some out =>
            if m.memoryDim.toNat + m.inputDim.toNat ≤ out.length then
              let newMemory := out.take m.memoryDim.toNat
              let predicted := (out.drop m.memoryDim.toNat).take m.inputDim.toNat
              match vecSub predicted x with
              | none => none
              | some diff =>
                let surprise := meanQ (diff.map fun d => d * d)
                match multiHeadAttention B m newMemory memory memory with
                | none => none
                | some attnOut => some (⟨predicted, newMemory, surprise⟩, attnOut)
            else none
  else none

/-- The hierarchical-memory update loop of `forward` (lines 170-175):
each stored layer vector is replaced by its elementwise sum with the
attention output (the `assign` fails on a shape mismatch). -/
def hierUpdate : List (List ℚ) → List ℚ → Option (List (List ℚ))
  | [], _ => some []
  | L :: Ls, a =>
    match vecAdd L a with
    | none => none
    | some L2 =>
      match hierUpdate Ls a with
      | none => none
      | some rest => some (L2 :: rest)

/-- `forward` (lines 130-192): the computation of `forwardAux` followed
by the hierarchical-memory side effect; would return the
`ForwardResult` and the mutated model state, but since `forwardAux`
always aborts inside `multiHeadAttention`, no call ever completes and
the banks are never mutated. -/
def forward (B : Backend) (m : TitanMemoryModel) (x memory : List ℚ) :
    Option (ForwardOut × TitanMemoryModel) :=
  match forwardAux B m x memory with
  | none => none
  | some (o, attnOut) =>
    match hierUpdate m.hierarchicalMemory attnOut with
    | none => none
    | some newHier => some (o, { m with hierarchicalMemory := newHier })

/-- The optimizer's declared trainable set (spec section 4.2):
`W1, b1, W2, b2, forgetGate`. -/
structure CoreParams where
  W1 : List (List ℚ)
  b1 : List ℚ
  W2 : List (List ℚ)
  b2 : List ℚ
  forgetGate : ℚ
deriving DecidableEq

/-- The trainable-core projection of a model state. -/
def getCore (m : TitanMemoryModel) : CoreParams :=
  ⟨m.W1, m.b1, m.W2, m.b2, m.forgetGate⟩

/-- Write back an updated trainable core, leaving every other parameter
of the state untouched. -/
def setCore (m : TitanMemoryModel) (c : CoreParams) : TitanMemoryModel :=
  { m with W1 := c.W1, b1 := c.b1, W2 := c.W2, b2 := c.b2, forgetGate := c.forgetGate }

/-- `trainStep` (lines 232-265).  Modelled from the spec: the numeric
backend's optimizer (`tf.train.adam(...).minimize(..., returnCost =
true)`) is an external capability; per spec section 4.2 it
differentiates the loss with respect to the declared trainable set
`W1, b1, W2, b2, forgetGate` and applies one in-place update to exactly
that set, abstracted here as an arbitrary update function `upd` on the
core parameters; `reportsCost` abstracts whether the backend reports
the computed cost (the `cost || tf.scalar(0)` fallback of line 262).
The loss closure runs one `forward` (hierarchical-memory side effect
included), then scores `mean((predicted − x_next)²) + 0.01 ×
surprise`; since `forward` always throws, no call ever reaches the
loss, the optimizer update or the `cost || 0` fallback. -/
def trainStep (B : Backend) (upd : CoreParams → CoreParams) (reportsCost : Bool)
    (m : TitanMemoryModel) (x_t x_next memory : List ℚ) :
    Option (ℚ × TitanMemoryModel) :=
  match forward B m x_t memory with
  | none => none
  | some (o, m1) =>
    match vecSub o.predicted x_next with
    | none => none
    | some diff =>
      let mse := meanQ (diff.map fun d => d * d)
      let totalLoss := mse + (1/100) * o.surprise
      let m2 := setCore m1 (upd (getCore m1))
      some ((if reportsCost then totalLoss else 0), m2)

/-- `manifoldStep` (lines 194-230): Euclidean translation when
`useManifold` is false; otherwise project the velocity on the tangent
space at `base`, and either return `base` unchanged (negligible
tangent) or take a clamped geodesic step and renormalize. -/
def manifoldStep (B : Backend) (m : TitanMemoryModel) (base velocity : List ℚ) :
    Option (List ℚ) :=
  if m.useManifold = false then vecAdd base velocity
  else
    match vecMul base velocity with
    | none => none
    | some prod =>
      let d := prod.sum
      let radial := base.map fun v => v * d
      match vecSub velocity radial with
      | none => none
      | some tangent =>
        let tnorm := B.sqrt (sumSq tangent)
        if tnorm < m.tangentEpsilon then some base
        else
          let stepSize := min tnorm m.maxStepSize
          let direction := tangent.map fun v => v / tnorm
          let part1 := base.map fun v => v * B.cos stepSize
          let part2 := direction.map fun v => v * B.sin stepSize
          match vecAdd part1 part2 with
          | none => none
          | some newParam =>
            let nrm := B.sqrt (sumSq newParam)
            some (newParam.map fun v => v / (nrm + 1/10^12))

/-- The serialized weight record written by `saveModel` and read back
by `loadModel` (lines 267-298); also the shape of a `getWeights()`
snapshot (lines 316-329). -/
structure WeightsOut where
  W1 : List (List ℚ)
  b1 : List ℚ
  W2 : List (List ℚ)
  b2 : List ℚ
  forgetGate : ℚ
  queryWeights : List (List (List ℚ))
  keyWeights : List (List (List ℚ))
  valueWeights : List (List (List ℚ))
  attentionOutputWeights : List (List (List ℚ))
  hierarchicalMemory : List (List ℚ)
deriving DecidableEq

/-- `getWeights()` (lines 316-329): a deep snapshot of every parameter
array. -/
def getWeights (m : TitanMemoryModel) : WeightsOut :=
  { W1 := m.W1
    b1 := m.b1
    W2 := m.W2
    b2 := m.b2
    forgetGate := m.forgetGate
    queryWeights := m.queryWeights
    keyWeights := m.keyWeights
    valueWeights := m.valueWeights
    attentionOutputWeights := m.attentionOutputWeights
    hierarchicalMemory := m.hierarchicalMemory }

/-- `saveModel` (lines 267-282): serialize every parameter array into
the structured weight record (the JSON byte encoding is the persistence
collaborator's concern per spec section 6 and round-trips exactly). -/
def saveModel (m : TitanMemoryModel) : WeightsOut :=
  { W1 := m.W1
    b1 := m.b1
    W2 := m.W2
    b2 := m.b2
    forgetGate := m.forgetGate
    queryWeights := m.queryWeights
    keyWeights := m.keyWeights
    valueWeights := m.valueWeights
    attentionOutputWeights := m.attentionOutputWeights
    hierarchicalMemory := m.hierarchicalMemory }

/-- A variable assignment of a 1-D tensor: succeeds with the new value
when the shapes agree, fails otherwise (as `tf.Variable.assign`). -/
def assignV (cur new : List ℚ) : Option (List ℚ) :=
  if cur.length = new.length then some new else none

/-- A variable assignment of a 2-D tensor: shapes must agree row by
row. -/
def assignM (cur new : List (List ℚ)) : Option (List (List ℚ)) :=
  if cur.length = new.length ∧ ∀ p ∈ cur.zip new, p.1.length = p.2.length then
    some new
  else none

/-- The `forEach((w, i) => w.assign(tensor2d(saved[i])))` pattern of
`loadModel` on a list of matrices: iterate over the current list, read
the saved entry at the same index (a missing entry is an undefined
access and fails), assign with shape check; saved entries beyond the
current length are silently ignored. -/
def assignHeads : List (List (List ℚ)) → List (List (List ℚ)) →
    Option (List (List (List ℚ)))
  | [], _ => some []
  | _ :: _, [] => none
  | c :: cs, s :: ss =>
    match assignM c s with
    | none => none
    | some x =>
      match assignHeads cs ss with
      | none => none
      | some xs => some (x :: xs)

/-- The same pattern on the list of hierarchical layer vectors. -/
def assignLayers : List (List ℚ) → List (List ℚ) → Option (List (List ℚ))
  | [], _ => some []
  | _ :: _, [] => none
  | c :: cs, s :: ss =>
    match assignV c s with
    | none => none
    | some x =>
      match assignLayers cs ss with
      | none => none
      | some xs => some (x :: xs)

/-- `loadModel` (lines 284-298): assign every parameter variable from
the saved record, shape-checked by the backend's `assign`. -/
def loadModel (m : TitanMemoryModel) (w : WeightsOut) : Option TitanMemoryModel :=
  match assignM m.W1 w.W1 with
  | none => none
  | some nW1 =>
    match assignV m.b1 w.b1 with
    | none => none
    | some nb1 =>
      match assignM m.W2 w.W2 with
      | none => none
      | some nW2 =>
        match assignV m.b2 w.b2 with
        | none => none
        | some nb2 =>
          match assignHeads m.queryWeights w.queryWeights with
          | none => none
          | some nq =>
            match assignHeads m.keyWeights w.keyWeights with
            | none => none
            | some nk =>
              match assignHeads m.valueWeights w.valueWeights with
              | none => none
              | some nv =>
                match assignHeads m.attentionOutputWeights w.attentionOutputWeights with
                | none => none
                | some no =>
                  match assignLayers m.hierarchicalMemory w.hierarchicalMemory with
                  | none => none
                  | some nh =>
                    some { m with
                      W1 := nW1, b1 := nb1, W2 := nW2, b2 := nb2,
                      forgetGate := w.forgetGate,
                      queryWeights := nq, keyWeights := nk,
                      valueWeights := nv, attentionOutputWeights := no,
                      hierarchicalMemory := nh }

/-- A concrete backend instance for closed evaluations: exp, sqrt, cos
and sin all constantly 1 (their values are irrelevant to the statements
that use this instance). -/
def B0 : Backend :=
  ⟨fun _ => 1, fun _ => 1, fun _ => 1, fun _ => 1⟩

/-- A concrete all-zero weight initialization. -/
def initZero : WeightInit :=
  ⟨fun _ _ => 0, fun _ _ => 0, fun _ _ _ => 0, fun _ _ _ => 0,
   fun _ _ _ => 0, fun _ _ _ => 0⟩

/-- A valid construction config with two attention heads and all
dimensions 1. -/
def cfgTwoHeads : TitanMemoryConfig :=
  { inputDim := some 1, hiddenDim := some 1, outputDim := some 1,
    numHeads := some 2, numLayers := some 1 }

/-- A config supplying the negative dimension `inputDim = -1` (all
other fields small and positive). -/
def cfgNegIn : TitanMemoryConfig :=
  { inputDim := some (-1), hiddenDim := some 1, outputDim := some 1,
    numHeads := some 1, numLayers := some 1 }

/-- A small valid config: all dimensions 1, one head, one layer. -/
def cfgSmall : TitanMemoryConfig :=
  { inputDim := some 1, hiddenDim := some 1, outputDim := some 1,
    numHeads := some 1, numLayers := some 1 }

/-- The concrete model the constructor produces from `cfgSmall` with
the all-zero initialization. -/
def mSmall : TitanMemoryModel :=
  { inputDim := 1, hiddenDim := 1, memoryDim := 1,
    learningRate := 1/1000, useManifold := false,
    momentumFactor := 9/10, forgetGateInit := 1/100,
    maxStepSize := 1/10, tangentEpsilon := 1/10^8,
    numHeads := 1, numLayers := 1,
    W1 := [[0, 0]], b1 := [0], W2 := [[0], [0]], b2 := [0, 0],
    forgetGate := 1/100,
    queryWeights := [[[0]]], keyWeights := [[[0]]],
    valueWeights := [[[0]]], attentionOutputWeights := [[[0]]],
    hierarchicalMemory := [[0]] }

/-- A model state whose parameter arrays have exactly the shapes the
constructor gives them for the stored configuration. -/
def WellFormed (m : TitanMemoryModel) : Prop :=
  m.W1.length = m.hiddenDim.toNat ∧
  (∀ r ∈ m.W1, r.length = (m.inputDim + m.memoryDim).toNat) ∧
  m.b1.length = m.hiddenDim.toNat ∧
  m.W2.length = (m.inputDim + m.memoryDim).toNat ∧
  (∀ r ∈ m.W2, r.length = m.hiddenDim.toNat) ∧
  m.b2.length = (m.inputDim + m.memoryDim).toNat ∧
  m.queryWeights.length = m.numHeads.toNat ∧
  (∀ M ∈ m.queryWeights, M.length = m.memoryDim.toNat ∧
    ∀ r ∈ M, r.length = m.memoryDim.toNat) ∧
  m.keyWeights.length = m.numHeads.toNat ∧
  (∀ M ∈ m.keyWeights, M.length = m.memoryDim.toNat ∧
    ∀ r ∈ M, r.length = m.memoryDim.toNat) ∧
  m.valueWeights.length = m.numHeads.toNat ∧
  (∀ M ∈ m.valueWeights, M.length = m.memoryDim.toNat ∧
    ∀ r ∈ M, r.length = m.memoryDim.toNat) ∧
  m.attentionOutputWeights.length = m.numHeads.toNat ∧
  (∀ M ∈ m.attentionOutputWeights, M.length = m.memoryDim.toNat ∧
    ∀ r ∈ M, r.length = m.memoryDim.toNat) ∧
  m.hierarchicalMemory.length = m.numLayers.toNat ∧
  (∀ L ∈ m.hierarchicalMemory, L.length = m.memoryDim.toNat)

/-- A second model with the same configuration as `mSmall` but
different parameter values (a freshly constructed model into which
saved weights are loaded). -/
def mSmall2 : TitanMemoryModel :=
  { inputDim := 1, hiddenDim := 1, memoryDim := 1,
    learningRate := 1/1000, useManifold := false,
    momentumFactor := 9/10, forgetGateInit := 1/100,
    maxStepSize := 1/10, tangentEpsilon := 1/10^8,
    numHeads := 1, numLayers := 1,
    W1 := [[1, 2]], b1 := [3], W2 := [[4], [5]], b2 := [6, 7],
    forgetGate := 0,
    queryWeights := [[[8]]], keyWeights := [[[9]]],
    valueWeights := [[[10]]], attentionOutputWeights := [[[11]]],
    hierarchicalMemory := [[12]] }

/-- The tangent projection `velocity − base·(base⋅velocity)` computed
by the manifold branch of `manifoldStep`. -/
def tangentOf (base velocity : List ℚ) : List ℚ :=
  List.zipWith (· - ·) velocity (base.map fun v => v * dot base velocity)

/-- The tangent norm `‖tangent‖` as the backend computes it. -/
def tnormOf (B : Backend) (base velocity : List ℚ) : ℚ :=
  B.sqrt (sumSq (tangentOf base velocity))

/-- The clamped step size `min(tnorm, maxStepSize)`. -/
def stepOf (B : Backend) (m : TitanMemoryModel) (base velocity : List ℚ) : ℚ :=
  min (tnormOf B base velocity) m.maxStepSize

/-- The un-normalized geodesic step
`base·cos(stepSize) + direction·sin(stepSize)`. -/
def geodesicOf (B : Backend) (m : TitanMemoryModel) (base velocity : List ℚ) : List ℚ :=
  List.zipWith (· + ·)
    (base.map fun v => v * B.cos (stepOf B m base velocity))
    (((tangentOf base velocity).map fun v => v / tnormOf B base velocity).map
      fun v => v * B.sin (stepOf B m base velocity))

/-- The returned vector of the manifold branch: the geodesic step
normalized by its norm plus `1e-12`. -/
def manifoldResult (B : Backend) (m : TitanMemoryModel) (base velocity : List ℚ) : List ℚ :=
  (geodesicOf B m base velocity).map
    fun v => v / (B.sqrt (sumSq (geodesicOf B m base velocity)) + 1/10^12)

/-- A concrete backend for the manifold witness: a square root that is
exact at 1, and the Pythagorean pair 3/5, 4/5 as cosine and sine. -/
def B6 : Backend :=
  ⟨fun _ => 1, fun q => if q = 1 then 1 else 0, fun _ => 3/5, fun _ => 4/5⟩

/-- The small concrete model with the manifold branch enabled. -/
def mC6 : TitanMemoryModel :=
  { mSmall with useManifold := true }

/-- `config.x || d` yields a positive value whenever every supplied
value is nonnegative and the default is positive. -/
theorem orDefault_pos {o : Option ℤ} {d : ℤ} (h : ∀ v, o = some v → 0 ≤ v)
    (hd : 0 < d) : 0 < orDefault o d := by
  cases o with
  | none => simpa [orDefault] using hd
  | some x =>
    have hx : 0 ≤ x := h x rfl
    by_cases hx0 : x = 0
    · simpa [orDefault, hx0] using hd
    · simp only [orDefault, if_neg hx0]
      omega

/-- C1: the claim states that for every valid config, `forward` returns
a `predicted` of length `inputDim`, a `newMemory` of length `memoryDim`
and a nonnegative scalar surprise.  The code contradicts this (and its
own tests, which assert exactly these shapes at the default head count
of 4): `forward` hands `multiHeadAttention` rank-1 tensors, whose very
first `tf.matMul` projection throws, so `forward` aborts before
returning on every call.  Concretely: at the valid two-head config with
all dimensions 1, construction succeeds but `forward` fails. -/
theorem c1_forward_aborts_on_two_heads :
    (mkModel initZero cfgTwoHeads).isSome = true ∧
    Option.bind (mkModel initZero cfgTwoHeads) (fun m => forward B0 m [1] [0]) = none := by
  decide

/-- C2 counterexample: the constructor performs no `InvalidConfig`
validation.  Supplying the non-positive dimension `inputDim = -1` does
not fail: every tensor the constructor creates still has nonnegative
dimensions, so the model is constructed successfully with
`inputDim = -1`, violating the claimed invariant `inputDim > 0`. -/
theorem c2_counterexample_negative_inputDim :
    Option.map TitanMemoryModel.inputDim (mkModel initZero cfgNegIn) = some (-1) := by
  decide

/-- C2 amended: construction validates nothing, but whenever every
supplied dimension and head/layer count is nonnegative (in particular
when it is omitted or the falsy `0`, which fall back to the positive
defaults), any successfully constructed model satisfies the invariant
`inputDim > 0`, `memoryDim > 0`, `numHeads ≥ 1`, `numLayers ≥ 1`. -/
theorem c2_invariant_for_nonneg_config (wi : WeightInit) (c : TitanMemoryConfig)
    (hin : ∀ v, c.inputDim = some v → 0 ≤ v)
    (hout : ∀ v, c.outputDim = some v → 0 ≤ v)
    (hheads : ∀ v, c.numHeads = some v → 0 ≤ v)
    (hlayers : ∀ v, c.numLayers = some v → 0 ≤ v) :
    (mkModel wi c).elim True fun m =>
      0 < m.inputDim ∧ 0 < m.memoryDim ∧ 1 ≤ m.numHeads ∧ 1 ≤ m.numLayers := by
  have h1 : 0 < orDefault c.inputDim 64 := orDefault_pos hin (by norm_num)
  have h2 : 0 < orDefault c.outputDim 64 := orDefault_pos hout (by norm_num)
  have h3 : 0 < orDefault c.numHeads 4 := orDefault_pos hheads (by norm_num)
  have h4 : 0 < orDefault c.numLayers 3 := orDefault_pos hlayers (by norm_num)
  simp only [mkModel]
  split
  · simp only [Option.elim, resolveConfig]
    exact ⟨h1, h2, by omega, by omega⟩
  · simp [Option.elim]

/-- C2 witness: the amended invariant theorem applied at the concrete
small config. -/
theorem c2_invariant_witness :
    (mkModel initZero cfgSmall).elim True (fun m =>
      0 < m.inputDim ∧ 0 < m.memoryDim ∧ 1 ≤ m.numHeads ∧ 1 ≤ m.numLayers) :=
  c2_invariant_for_nonneg_config initZero cfgSmall
    (fun v hv => by simp [cfgSmall] at hv; omega)
    (fun v hv => by simp [cfgSmall] at hv; omega)
    (fun v hv => by simp [cfgSmall] at hv; omega)
    (fun v hv => by simp [cfgSmall] at hv; omega)

/-- C5: with `useManifold = false`, `manifoldStep` is exactly the
elementwise Euclidean sum `base + velocity` for equal-length vectors. -/
theorem c5_manifoldStep_euclidean (B : Backend) (m : TitanMemoryModel)
    (base velocity : List ℚ) (hman : m.useManifold = false)
    (hlen : base.length = velocity.length) :
    manifoldStep B m base velocity = some (List.zipWith (· + ·) base velocity) := by
  unfold manifoldStep
  rw [if_pos hman]
  unfold vecAdd
  rw [if_pos hlen]

/-- C5 witness: the Euclidean branch evaluated at a concrete pair. -/
theorem c5_manifoldStep_euclidean_witness :
    manifoldStep B0 mSmall [1, 2] [3, 4] = some (List.zipWith (· + ·) [1, 2] [3, 4]) :=
  c5_manifoldStep_euclidean B0 mSmall [1, 2] [3, 4] rfl rfl

/-- C9: a config field supplied as the falsy `0` is indistinguishable
from an omitted field; every field then falls back to its default
(`inputDim 64`, `hiddenDim 32`, `outputDim 64`, `learningRate 1e-3`,
`momentumFactor 0.9`, `forgetGateInit 0.01`, `maxStepSize 0.1`,
`tangentEpsilon 1e-8`, `numHeads 4`, `numLayers 3`); in particular a
model constructed with `learningRate 0` reports
`getConfig().learningRate = 1e-3`. -/
theorem c9_falsy_config_fields_default :
    (∀ c : TitanMemoryConfig,
      resolveConfig { c with inputDim := some 0 } = resolveConfig { c with inputDim := none } ∧
      resolveConfig { c with hiddenDim := some 0 } = resolveConfig { c with hiddenDim := none } ∧
      resolveConfig { c with outputDim := some 0 } = resolveConfig { c with outputDim := none } ∧
      resolveConfig { c with learningRate := some 0 } = resolveConfig { c with learningRate := none } ∧
      resolveConfig { c with momentumFactor := some 0 } = resolveConfig { c with momentumFactor := none } ∧
      resolveConfig { c with forgetGateInit := some 0 } = resolveConfig { c with forgetGateInit := none } ∧
      resolveConfig { c with maxStepSize := some 0 } = resolveConfig { c with maxStepSize := none } ∧
      resolveConfig { c with tangentEpsilon := some 0 } = resolveConfig { c with tangentEpsilon := none } ∧
      resolveConfig { c with numHeads := some 0 } = resolveConfig { c with numHeads := none } ∧
      resolveConfig { c with numLayers := some 0 } = resolveConfig { c with numLayers := none }) ∧
    resolveConfig {} = ⟨64, 32, 64, 1/1000, false, 9/10, 1/100, 1/10, 1/10^8, 4, 3⟩ ∧
    (∀ wi : WeightInit,
      Option.map (fun m => (getConfig m).learningRate)
        (mkModel wi { learningRate := some 0 }) = some (1/1000)) := by
  refine ⟨fun c => ?_, by rfl, fun wi => ?_⟩
  · simp [resolveConfig, orDefault, orDefaultQ]
  · norm_num [mkModel, resolveConfig, orDefault, orDefaultQ, getConfig]

/-- The head loop aborts as soon as it runs at least once: the first
head's query projection is a rank-1 `tf.matMul` and throws. -/
theorem attentionHeads_succ_none (B : Backend) (scale : ℚ) (query key value : List ℚ)
    (n : ℕ) (qs ks vs : List (List (List ℚ))) :
    attentionHeads B scale query key value (n + 1) qs ks vs = none := by
  unfold attentionHeads
  split
  · simp [matMulRank1]
  · rfl

/-- `multiHeadAttention` throws on every invocation: with at least one
head the head loop fails on its rank-1 projections, and with zero heads
the concatenation of an empty tensor list fails. -/
theorem multiHeadAttention_none (B : Backend) (m : TitanMemoryModel)
    (query key value : List ℚ) :
    multiHeadAttention B m query key value = none := by
  unfold multiHeadAttention
  cases hn : m.numHeads.toNat with
  | zero => simp [attentionHeads]
  | succ n => rw [attentionHeads_succ_none]

/-- No `forwardAux` computation reaches its return: every path ends in
the always-throwing attention step (or an earlier shape failure). -/
theorem forwardAux_none (B : Backend) (m : TitanMemoryModel) (x memory : List ℚ) :
    forwardAux B m x memory = none := by
  simp only [forwardAux, multiHeadAttention_none]
  repeat' split
  all_goals rfl

/-- No `forward` call completes (and hence none mutates the model). -/
theorem forward_none (B : Backend) (m : TitanMemoryModel) (x memory : List ℚ) :
    forward B m x memory = none := by
  unfold forward
  rw [forwardAux_none]

/-- No `trainStep` call completes: the loss closure's `forward` throws
before a cost, a gradient or an update ever exists. -/
theorem trainStep_none (B : Backend) (upd : CoreParams → CoreParams) (rc : Bool)
    (m : TitanMemoryModel) (x_t x_next memory : List ℚ) :
    trainStep B upd rc m x_t x_next memory = none := by
  unfold trainStep
  rw [forward_none]

/-- C7: the claim states that every `forward` call mutates exactly the
hierarchical banks, replacing each layer by `layer + attentionOutput`,
unconditionally on every call.  The code contradicts this (and its own
tests, which expect `forward` to complete): every `forward` call aborts
inside `multiHeadAttention` — the head projections are rank-1
`tf.matMul`s — before the bank-update loop, so no call completes and no
layer is ever assigned. -/
theorem c7_forward_never_completes :
    ∀ (B : Backend) (m : TitanMemoryModel) (x memory : List ℚ),
      forward B m x memory = none :=
  fun B m x memory => forward_none B m x memory

/-- C3: the claim states that a `trainStep` call applies one optimizer
update to `W1, b1, W2, b2, forgetGate`, leaves the attention matrices
untouched, and lets the banks accumulate once via the internal
`forward`.  The code contradicts this (and its own training tests):
every `trainStep` aborts when the loss closure's `forward` throws in
attention, so no optimizer update and no bank update ever occurs. -/
theorem c3_trainStep_never_updates :
    ∀ (B : Backend) (upd : CoreParams → CoreParams) (rc : Bool)
      (m : TitanMemoryModel) (x_t x_next memory : List ℚ),
      trainStep B upd rc m x_t x_next memory = none :=
  fun B upd rc m x_t x_next memory => trainStep_none B upd rc m x_t x_next memory

/-- C4: the claim states that `trainStep` returns the scalar
`mean((predicted − x_next)²) + 0.01 × surprise`, or `0` when the
backend reports no cost.  The code contradicts this (and its own
tests, which read the returned loss): no call returns any scalar — the
loss closure throws on every invocation, so neither the loss nor the
`cost || 0` fallback is ever reached.  Concretely, at the freshly
constructed small model the call yields no result. -/
theorem c4_trainStep_no_cost :
    Option.bind (mkModel initZero cfgSmall)
      (fun m => trainStep B0 id true m [0] [1] [0]) = none := by
  cases h : mkModel initZero cfgSmall with
  | none => rfl
  | some m => simp [trainStep_none]

/-- The constructor output at the small config with zero weights is the
concrete model `mSmall`. -/
theorem mkModel_cfgSmall_eval : mkModel initZero cfgSmall = some mSmall := by
  norm_num [mkModel, resolveConfig, orDefault, orDefaultQ, mkMat, zerosV, mSmall, cfgSmall,
    initZero, List.range_succ, Int.toNat, List.replicate_succ]

/-- C10 counterexample: the claim's mechanism — every forward adds the
same attention output to every layer — never occurs: at the freshly
constructed small model (a reachable state) the `forward` call aborts
and adds nothing. -/
theorem c10_counterexample_forward_adds_nothing :
    Option.bind (mkModel initZero cfgSmall) (fun m => forward B0 m [0] [0]) = none := by
  cases h : mkModel initZero cfgSmall with
  | none => rfl
  | some m => simp [forward_none]

/-- C10 amended: the constructor initializes every hierarchical layer
to the zero vector, so all layers are mutually equal, and they remain
so in every reachable state for the degenerate reason that no `forward`
or `trainStep` call ever completes or touches them — every call aborts
in attention before the layer-update loop. -/
theorem c10_layers_zero_and_untouched :
    (∀ (wi : WeightInit) (c : TitanMemoryConfig) (m : TitanMemoryModel),
      mkModel wi c = some m →
      (∀ L ∈ m.hierarchicalMemory, L = zerosV m.memoryDim.toNat) ∧
      ∀ L1 ∈ m.hierarchicalMemory, ∀ L2 ∈ m.hierarchicalMemory, L1 = L2) ∧
    (∀ (B : Backend) (m : TitanMemoryModel) (x memory : List ℚ),
      (forward B m x memory).isNone = true) ∧
    (∀ (B : Backend) (upd : CoreParams → CoreParams) (rc : Bool)
      (m : TitanMemoryModel) (x_t x_next memory : List ℚ),
      (trainStep B upd rc m x_t x_next memory).isNone = true) := by
  refine ⟨?_, ?_, ?_⟩
  · intro wi c m h
    have hz : ∀ L ∈ m.hierarchicalMemory, L = zerosV m.memoryDim.toNat := by
      intro L hL
      simp only [mkModel] at h
      split at h
      · rw [← Option.some.inj h] at hL ⊢
        simp only [List.mem_map] at hL
        obtain ⟨i, _, hi⟩ := hL
        exact hi.symm
      · exact Option.noConfusion h
    exact ⟨hz, fun L1 hL1 L2 hL2 => (hz L1 hL1).trans (hz L2 hL2).symm⟩
  · intro B m x memory
    rw [forward_none]
    rfl
  · intro B upd rc m x_t x_next memory
    rw [trainStep_none]
    rfl

/-- C10 witness: the amended theorem applied at the concrete
construction and at concrete `forward` and `trainStep` calls on the
constructed model. -/
theorem c10_layers_zero_and_untouched_witness :
    ((∀ L ∈ mSmall.hierarchicalMemory, L = zerosV mSmall.memoryDim.toNat) ∧
      ∀ L1 ∈ mSmall.hierarchicalMemory, ∀ L2 ∈ mSmall.hierarchicalMemory, L1 = L2) ∧
    (forward B0 mSmall [0] [0]).isNone = true ∧
    (trainStep B0 id true mSmall [0] [0] [0]).isNone = true :=
  ⟨c10_layers_zero_and_untouched.1 initZero cfgSmall mSmall mkModel_cfgSmall_eval,
   c10_layers_zero_and_untouched.2.1 B0 mSmall [0] [0],
   c10_layers_zero_and_untouched.2.2 B0 id true mSmall [0] [0] [0]⟩

theorem dot_nil_right (a : List ℚ) : dot a [] = 0 := by
  cases a <;> rfl

theorem dot_cons (x y : ℚ) (a b : List ℚ) : dot (x :: a) (y :: b) = x * y + dot a b := by
  simp [dot]

theorem sumSq_cons (x : ℚ) (a : List ℚ) : sumSq (x :: a) = x * x + sumSq a := by
  simp [sumSq]

theorem dot_self (a : List ℚ) : dot a a = sumSq a := by
  induction a with
  | nil => rfl
  | cons x a ih => rw [dot_cons, sumSq_cons, ih]

theorem dot_map_mul_right (k : ℚ) : ∀ a b : List ℚ,
    dot a (b.map fun v => v * k) = k * dot a b := by
  intro a
  induction a with
  | nil => intro b; simp [dot]
  | cons x a ih =>
    intro b
    cases b with
    | nil => simp [dot]
    | cons y b =>
      rw [List.map_cons, dot_cons, dot_cons, ih]
      ring

theorem dot_map_mul_left (k : ℚ) : ∀ a b : List ℚ,
    dot (a.map fun v => v * k) b = k * dot a b := by
  intro a
  induction a with
  | nil => intro b; simp [dot]
  | cons x a ih =>
    intro b
    cases b with
    | nil => simp [dot_nil_right]
    | cons y b =>
      rw [List.map_cons, dot_cons, dot_cons, ih]
      ring

theorem dot_sub_right : ∀ a b c : List ℚ, b.length = c.length →
    dot a (List.zipWith (· - ·) b c) = dot a b - dot a c := by
  intro a
  induction a with
  | nil => intro b c _; simp [dot]
  | cons x a ih =>
    intro b c hlen
    cases b with
    | nil =>
      cases c with
      | nil => simp [dot]
      | cons z c => exact absurd hlen (by simp)
    | cons y b =>
      cases c with
      | nil => exact absurd hlen (by simp)
      | cons z c =>
        rw [List.zipWith_cons_cons, dot_cons, dot_cons, dot_cons,
          ih b c (by simpa using hlen)]
        ring

theorem sumSq_zipWith_add : ∀ a b : List ℚ, a.length = b.length →
    sumSq (List.zipWith (· + ·) a b) = sumSq a + 2 * dot a b + sumSq b := by
  intro a
  induction a with
  | nil =>
    intro b hlen
    cases b with
    | nil => simp [sumSq, dot]
    | cons y b => exact absurd hlen (by simp)
  | cons x a ih =>
    intro b hlen
    cases b with
    | nil => exact absurd hlen (by simp)
    | cons y b =>
      rw [List.zipWith_cons_cons, sumSq_cons, sumSq_cons, sumSq_cons, dot_cons,
        ih b (by simpa using hlen)]
      ring

theorem sumSq_map_mul (k : ℚ) : ∀ a : List ℚ,
    sumSq (a.map fun v => v * k) = k ^ 2 * sumSq a := by
  intro a
  induction a with
  | nil => simp [sumSq]
  | cons x a ih =>
    rw [List.map_cons, sumSq_cons, sumSq_cons, ih]
    ring

/-- C6: with `useManifold = true`, `manifoldStep` returns `base`
unchanged whenever the backend-computed tangent norm is below
`tangentEpsilon` (in particular for zero velocity, whose tangent norm
is the square root of 0); otherwise it returns
`(base·cos(s) + direction·sin(s))` normalized by its norm plus `1e-12`
with `s = min(tangent norm, maxStepSize)`, so the step size never
exceeds `maxStepSize` and, for unit-norm `base` (with the backend's
sqrt, cos, sin exact at the points used), the squared norm of the
result lies within the `1e-5` band around 1. -/
theorem c6_manifoldStep_sphere (B : Backend) (m : TitanMemoryModel) (base velocity : List ℚ)
    (hman : m.useManifold = true) (hlen : base.length = velocity.length)
    (heps : 0 < m.tangentEpsilon) (hunit : sumSq base = 1)
    (hsq : tnormOf B base velocity ^ 2 = sumSq (tangentOf base velocity))
    (htrig : B.cos (stepOf B m base velocity) ^ 2 + B.sin (stepOf B m base velocity) ^ 2 = 1)
    (hone : B.sqrt 1 = 1) :
    (tnormOf B base velocity < m.tangentEpsilon → manifoldStep B m base velocity = some base) ∧
    (¬ tnormOf B base velocity < m.tangentEpsilon →
      manifoldStep B m base velocity = some (manifoldResult B m base velocity) ∧
      stepOf B m base velocity ≤ m.maxStepSize ∧
      (1 - 1/100000) ^ 2 ≤ sumSq (manifoldResult B m base velocity) ∧
      sumSq (manifoldResult B m base velocity) ≤ 1) := by
  have hvm : vecMul base velocity = some (List.zipWith (· * ·) base velocity) := by
    unfold vecMul
    rw [if_pos hlen]
  have hd : (List.zipWith (· * ·) base velocity).sum = dot base velocity := rfl
  have hvs : vecSub velocity (base.map fun v => v * dot base velocity) =
      some (tangentOf base velocity) := by
    unfold vecSub tangentOf
    rw [if_pos (by simp [hlen])]
  have htn : B.sqrt (sumSq (tangentOf base velocity)) = tnormOf B base velocity := rfl
  have hst : min (tnormOf B base velocity) m.maxStepSize = stepOf B m base velocity := rfl
  have hva : vecAdd (base.map fun v => v * B.cos (stepOf B m base velocity))
      (((tangentOf base velocity).map fun v => v / tnormOf B base velocity).map
        fun v => v * B.sin (stepOf B m base velocity)) =
      some (geodesicOf B m base velocity) := by
    unfold vecAdd geodesicOf
    rw [if_pos (by simp [tangentOf, hlen])]
  have hres : ((geodesicOf B m base velocity).map
      fun v => v / (B.sqrt (sumSq (geodesicOf B m base velocity)) + 1/10^12)) =
      manifoldResult B m base velocity := rfl
  have hstep : manifoldStep B m base velocity =
      if tnormOf B base velocity < m.tangentEpsilon then some base
      else some (manifoldResult B m base velocity) := by
    unfold manifoldStep
    rw [hman]
    rw [if_neg (by simp)]
    simp only [hvm, hd, hvs, htn, hst, hva, hres]
  refine ⟨fun hlt => by rw [hstep, if_pos hlt], fun hge => ?_⟩
  have htq : 0 < tnormOf B base velocity := lt_of_lt_of_le heps (not_lt.mp hge)
  have htq0 : tnormOf B base velocity ≠ 0 := ne_of_gt htq
  have horth : dot base (tangentOf base velocity) = 0 := by
    unfold tangentOf
    rw [dot_sub_right base velocity (base.map fun v => v * dot base velocity) (by simp [hlen]),
      dot_map_mul_right, dot_self, hunit]
    ring
  have hdir : sumSq ((tangentOf base velocity).map
      fun v => v / tnormOf B base velocity) = 1 := by
    simp only [div_eq_mul_inv]
    rw [sumSq_map_mul, ← hsq]
    field_simp
  have hW : sumSq (geodesicOf B m base velocity) = 1 := by
    unfold geodesicOf
    rw [sumSq_zipWith_add _ _ (by simp [tangentOf, hlen])]
    rw [sumSq_map_mul, hunit, sumSq_map_mul, hdir]
    rw [dot_map_mul_left, dot_map_mul_right]
    simp only [div_eq_mul_inv]
    rw [dot_map_mul_right, horth]
    ring_nf
    linarith [htrig]
  have hfinal : sumSq (manifoldResult B m base velocity) = ((1 + 1/10^12)⁻¹ : ℚ) ^ 2 := by
    unfold manifoldResult
    rw [hW, hone]
    simp only [div_eq_mul_inv]
    rw [sumSq_map_mul, hW]
    ring
  refine ⟨by rw [hstep, if_neg hge], min_le_right _ _, ?_, ?_⟩
  · rw [hfinal]
    norm_num
  · rw [hfinal]
    norm_num

/-- C6 witness: the manifold theorem applied at the unit base `[1,0]`,
velocity `[0,1]` (tangent norm 1, so the step is clamped to
`maxStepSize = 0.1`), with a backend whose sqrt is exact at 1 and whose
cosine/sine at the step are the Pythagorean pair 3/5, 4/5. -/
theorem c6_manifoldStep_sphere_witness :
    (tnormOf B6 [1, 0] [0, 1] < mC6.tangentEpsilon →
      manifoldStep B6 mC6 [1, 0] [0, 1] = some [1, 0]) ∧
    (¬ tnormOf B6 [1, 0] [0, 1] < mC6.tangentEpsilon →
      manifoldStep B6 mC6 [1, 0] [0, 1] = some (manifoldResult B6 mC6 [1, 0] [0, 1]) ∧
      stepOf B6 mC6 [1, 0] [0, 1] ≤ mC6.maxStepSize ∧
      (1 - 1/100000) ^ 2 ≤ sumSq (manifoldResult B6 mC6 [1, 0] [0, 1]) ∧
      sumSq (manifoldResult B6 mC6 [1, 0] [0, 1]) ≤ 1) :=
  c6_manifoldStep_sphere B6 mC6 [1, 0] [0, 1] rfl rfl
    (by norm_num [mC6, mSmall])
    (by norm_num [sumSq])
    (by norm_num [tnormOf, tangentOf, sumSq, dot, B6])
    (by norm_num [B6])
    (by norm_num [B6])

/-- A 1-D assignment succeeds (with the saved value) when both sides
have the same length. -/
theorem assignV_of_shapes {a b : List ℚ} {n : ℕ} (h1 : a.length = n) (h2 : b.length = n) :
    assignV a b = some b := by
  unfold assignV
  rw [if_pos (h1.trans h2.symm)]

/-- A 2-D assignment succeeds when both sides have the same shape. -/
theorem assignM_of_shapes {A C : List (List ℚ)} {r c : ℕ}
    (h1 : A.length = r) (h2 : C.length = r)
    (h3 : ∀ row ∈ A, row.length = c) (h4 : ∀ row ∈ C, row.length = c) :
    assignM A C = some C := by
  unfold assignM
  rw [if_pos]
  refine ⟨h1.trans h2.symm, fun p hp => ?_⟩
  obtain ⟨hpa, hpb⟩ := List.of_mem_zip hp
  rw [h3 _ hpa, h4 _ hpb]

/-- Loading a list of equal-count, equal-length layer vectors succeeds
and yields the saved list. -/
theorem assignLayers_of_shapes {d : ℕ} : ∀ {cur saved : List (List ℚ)},
    cur.length = saved.length →
    (∀ L ∈ cur, L.length = d) → (∀ L ∈ saved, L.length = d) →
    assignLayers cur saved = some saved := by
  intro cur
  induction cur with
  | nil =>
    intro saved hlen _ _
    cases saved with
    | nil => rfl
    | cons s ss => exact absurd hlen (by simp)
  | cons cHead cTail ih =>
    intro saved hlen hc hs
    cases saved with
    | nil => exact absurd hlen (by simp)
    | cons s ss =>
      have h1 : assignV cHead s = some s :=
        assignV_of_shapes (hc _ (by simp)) (hs _ (by simp))
      have h2 : assignLayers cTail ss = some ss :=
        ih (by simpa using hlen) (fun L hL => hc _ (by simp [hL]))
          (fun L hL => hs _ (by simp [hL]))
      simp [assignLayers, h1, h2]

/-- Loading a list of equally many `d × d` head matrices succeeds and
yields the saved list. -/
theorem assignHeads_of_shapes {d : ℕ} : ∀ {cur saved : List (List (List ℚ))},
    cur.length = saved.length →
    (∀ M ∈ cur, M.length = d ∧ ∀ r ∈ M, r.length = d) →
    (∀ M ∈ saved, M.length = d ∧ ∀ r ∈ M, r.length = d) →
    assignHeads cur saved = some saved := by
  intro cur
  induction cur with
  | nil =>
    intro saved hlen _ _
    cases saved with
    | nil => rfl
    | cons s ss => exact absurd hlen (by simp)
  | cons cHead cTail ih =>
    intro saved hlen hc hs
    cases saved with
    | nil => exact absurd hlen (by simp)
    | cons s ss =>
      have hch := hc cHead (by simp)
      have hsh := hs s (by simp)
      have h1 : assignM cHead s = some s :=
        assignM_of_shapes hch.1 hsh.1 hch.2 hsh.2
      have h2 : assignHeads cTail ss = some ss :=
        ih (by simpa using hlen) (fun M hM => hc _ (by simp [hM]))
          (fun M hM => hs _ (by simp [hM]))
      simp [assignHeads, h1, h2]

/-- C8: saving a model and loading the record into a freshly
constructed model of identical configuration succeeds and reproduces
the saved model exactly, hence identical `getWeights()` snapshots and
identical `forward` results on the same inputs. -/
theorem c8_save_load_roundtrip (m m0 : TitanMemoryModel)
    (hconf : getConfig m0 = getConfig m) (hw : WellFormed m) (hw0 : WellFormed m0) :
    loadModel m0 (saveModel m) = some m ∧
    Option.map getWeights (loadModel m0 (saveModel m)) = some (getWeights m) ∧
    ∀ (B : Backend) (x mem : List ℚ),
      Option.map (fun mm => forward B mm x mem) (loadModel m0 (saveModel m)) =
        some (forward B m x mem) := by
  simp only [getConfig, ConfigOut.mk.injEq] at hconf
  obtain ⟨e1, e2, e3, e4, e5, e6, e7, e8, e9, e10, e11⟩ := hconf
  obtain ⟨w1len, w1rows, b1len, w2len, w2rows, b2len, qlen, qsh, klen, ksh,
    vlen, vsh, olen, osh, hlen2, hsh2⟩ := hw
  obtain ⟨w1len0, w1rows0, b1len0, w2len0, w2rows0, b2len0, qlen0, qsh0, klen0, ksh0,
    vlen0, vsh0, olen0, osh0, hlen0, hsh0⟩ := hw0
  have hW1 : assignM m0.W1 m.W1 = some m.W1 :=
    assignM_of_shapes (by rw [w1len0, e2]) w1len
      (fun r hr => by rw [w1rows0 r hr, e1, e3]) w1rows
  have hb1 : assignV m0.b1 m.b1 = some m.b1 :=
    assignV_of_shapes (by rw [b1len0, e2]) b1len
  have hW2 : assignM m0.W2 m.W2 = some m.W2 :=
    assignM_of_shapes (by rw [w2len0, e1, e3]) w2len
      (fun r hr => by rw [w2rows0 r hr, e2]) w2rows
  have hb2 : assignV m0.b2 m.b2 = some m.b2 :=
    assignV_of_shapes (by rw [b2len0, e1, e3]) b2len
  have hq : assignHeads m0.queryWeights m.queryWeights = some m.queryWeights :=
    assignHeads_of_shapes (by rw [qlen0, e10, qlen])
      (fun M hM => by have := qsh0 M hM; rw [e3] at this; exact this) qsh
  have hk : assignHeads m0.keyWeights m.keyWeights = some m.keyWeights :=
    assignHeads_of_shapes (by rw [klen0, e10, klen])
      (fun M hM => by have := ksh0 M hM; rw [e3] at this; exact this) ksh
  have hv : assignHeads m0.valueWeights m.valueWeights = some m.valueWeights :=
    assignHeads_of_shapes (by rw [vlen0, e10, vlen])
      (fun M hM => by have := vsh0 M hM; rw [e3] at this; exact this) vsh
  have ho : assignHeads m0.attentionOutputWeights m.attentionOutputWeights =
      some m.attentionOutputWeights :=
    assignHeads_of_shapes (by rw [olen0, e10, olen])
      (fun M hM => by have := osh0 M hM; rw [e3] at this; exact this) osh
  have hh : assignLayers m0.hierarchicalMemory m.hierarchicalMemory =
      some m.hierarchicalMemory :=
    assignLayers_of_shapes (by rw [hlen0, e11, hlen2])
      (fun L hL => by rw [hsh0 L hL, e3]) hsh2
  have hload : loadModel m0 (saveModel m) = some m := by
    simp only [loadModel, saveModel, hW1, hb1, hW2, hb2, hq, hk, hv, ho, hh]
    rw [Option.some.injEq]
    cases m
    cases m0
    simp_all
  refine ⟨hload, by rw [hload]; rfl, fun B x mem => by rw [hload]; rfl⟩

/-- C8 witness: the round trip applied to the two concrete small models
of identical configuration but different parameter values. -/
theorem c8_save_load_roundtrip_witness :
    loadModel mSmall2 (saveModel mSmall) = some mSmall ∧
    Option.map getWeights (loadModel mSmall2 (saveModel mSmall)) = some (getWeights mSmall) ∧
    ∀ (B : Backend) (x mem : List ℚ),
      Option.map (fun mm => forward B mm x mem) (loadModel mSmall2 (saveModel mSmall)) =
        some (forward B mSmall x mem) :=
  c8_save_load_roundtrip mSmall mSmall2 rfl (by unfold WellFormed; decide) (by unfold WellFormed; decide)
